import Mathlib

/-!
Verification of the FNF v-slice converter core (src/script.js, the variant
with `validateFiles`): file intake and validation, archive expansion, file
classification, chart transformation, and package building, shallowly
embedded as Lean functions.  External collaborators (the ZIP codec and the
structured-data codec) are passed in as explicit function parameters, as the
source delegates them to JSZip and JSON.
-/

set_option autoImplicit false

namespace VSlice

/-- The fixed extension allow-list, from `SUPPORTED_FILES`. -/
def SUPPORTED_FILES : List String := [".json", ".ogg", ".png", ".zip"]

/-- The fixed size ceiling in bytes, from `MAX_FILE_SIZE` (50 MiB). -/
def MAX_FILE_SIZE : Nat := 50 * 1024 * 1024

/-- One working-set file: a JS `File` as the converter sees it.  `content`
stands for the raw byte payload (`file.text()` reads it as text). -/
structure WFile where
  name : String
  size : Nat
  content : String
deriving DecidableEq, Repr

/-- One entry of a decoded archive, as produced by the external ZIP codec:
a path, a directory flag, and the entry's bytes. -/
structure ZipEntry where
  name : String
  dir : Bool
  data : String
deriving DecidableEq, Repr

/-- `new File([fileData], name)` on an extracted entry: the new working-set
file is named by the full in-archive path and carries the entry's bytes. -/
def entryToFile (e : ZipEntry) : WFile :=
  { name := e.name, size := e.data.length, content := e.data }

/-- JS `String.prototype.endsWith`, computed structurally on the
character list. -/
def strEndsWith (s post : String) : Bool := post.data.isSuffixOf s.data

/-- JS `String.prototype.toLowerCase`, computed structurally on the
character list. -/
def strToLower (s : String) : String := String.mk (s.data.map Char.toLower)

/-- True when the lowercased name ends in one of the allowed extensions and
the size is within the ceiling — the filter body of `validateFiles`. -/
def keepFile (f : WFile) : Bool :=
  (SUPPORTED_FILES.any fun ext => strEndsWith (strToLower f.name) ext)
    && decide (f.size ≤ MAX_FILE_SIZE)

/-- `validateFiles` (source lines 177-204): an empty batch throws
"No files selected"; otherwise the batch is filtered by `keepFile`, and an
empty survivor list throws "No supported files found". -/
def validateFiles (files : List WFile) : Except String (List WFile) :=
  if files.isEmpty then Except.error ("No files selected")
  else
    let kept := files.filter keepFile
    if kept.isEmpty then Except.error ("No supported files found")
    else Except.ok kept

/-- The archive detection predicate: `f.name.endsWith('.zip')`
(case-sensitive, unlike intake's lowercased check). -/
def isZipName (f : WFile) : Bool := strEndsWith f.name (".zip")

/-- `hasArchive` (source lines 206-208). -/
def hasArchive (files : List WFile) : Bool := files.any isZipName

/-- `extractArchive` (source lines 210-236).  The source finds the first
`.zip` file, decodes it (JSZip, here the parameter `dec`), keeps the
non-directory entries, and sets the working set to
`[...files.filter(f => f !== zipFile), ...zipFiles]`: every other file in
its original order, with the extracted entries appended at the end.  A
decode failure throws "Failed to extract ZIP file".  The recursion below
walks to the first `.zip` file and computes exactly that list. -/
def extractArchive (dec : String → Option (List ZipEntry)) :
    List WFile → Except String (List WFile)
  | [] => Except.ok []
  | f :: fs =>
    if isZipName f then
      match dec f.content with
      | none => Except.error ("Failed to extract ZIP file")
      | some es =>
          Except.ok (fs ++ (es.filter fun e => !e.dir).map entryToFile)
    else
      match extractArchive dec fs with
      | Except.ok r => Except.ok (f :: r)
      | Except.error e => Except.error e

/-- Helper for `strIncludes`: does `sub` occur as a prefix at some
position of the character list? -/
def includesAux (sub : List Char) : List Char → Bool
  | [] => sub.isPrefixOf []
  | c :: cs => sub.isPrefixOf (c :: cs) || includesAux sub cs

/-- JS `String.prototype.includes`: `sub` occurs somewhere in `s`. -/
def strIncludes (s sub : String) : Bool := includesAux sub.data s.data

/-- Songs-bucket rule: `.ogg` extension or a `/songs/` path segment. -/
def songsRule (f : WFile) : Bool :=
  strEndsWith f.name (".ogg") || strIncludes f.name ("/songs/")

/-- Data-bucket rule: `.json` extension or a `/data/` path segment. -/
def dataRule (f : WFile) : Bool :=
  strEndsWith f.name (".json") || strIncludes f.name ("/data/")

/-- Images-bucket rule: `.png` extension or an `/images/` path segment. -/
def imagesRule (f : WFile) : Bool :=
  strEndsWith f.name (".png") || strIncludes f.name ("/images/")

/-- The three bucket lists held in `this.vsliceStructure`. -/
structure VsliceStructure where
  songs : List WFile
  data : List WFile
  images : List WFile
deriving DecidableEq, Repr

/-- `organizeFiles` (source lines 238-252): three independent filters of
the working set, one per bucket rule. -/
def organizeFiles (files : List WFile) : VsliceStructure :=
  { songs := files.filter songsRule
    data := files.filter dataRule
    images := files.filter imagesRule }

/-- One source note record, the fields `convertToVSlice` consumes.  An
absent field is `none`. -/
structure SourceNote where
  strumTime : Option Int
  noteType : Option String
  direction : Option String
  sustainLength : Option Int
deriving DecidableEq, Repr

/-- A parsed chart prior to conversion, the fields `convertToVSlice`
consumes.  An absent field is `none`. -/
structure ChartSource where
  song : Option String
  bpm : Option Int
  speed : Option Int
  notes : Option (List SourceNote)
deriving DecidableEq, Repr

/-- Destination metadata record. -/
structure ChartMeta where
  name : String
  bpm : Int
  speed : Int
deriving DecidableEq, Repr

/-- Destination note record.  `time` is `note.strumTime` passed through
with no default, so it stays optional. -/
structure TargetNote where
  time : Option Int
  type : String
  direction : String
  length : Int
deriving DecidableEq, Repr

/-- The destination chart schema. -/
structure ChartTarget where
  metadata : ChartMeta
  notes : List TargetNote
deriving DecidableEq, Repr

/-- JS `x || d` on a string-valued field: absent or empty (falsy) yields
the default. -/
def jsOrS (v : Option String) (d : String) : String :=
  match v with
  | none => d
  | some s => if s = "" then d else s

/-- JS `x || d` on a number-valued field: absent or zero (falsy) yields
the default. -/
def jsOrI (v : Option Int) (d : Int) : Int :=
  match v with
  | none => d
  | some n => if n = 0 then d else n

/-- The note mapping lambda inside `convertToVSlice` (source lines
279-284). -/
def convertNote (note : SourceNote) : TargetNote :=
  { time := note.strumTime
    type := jsOrS note.noteType ("default")
    direction := jsOrS note.direction ("middle")
    length := jsOrI note.sustainLength 0 }

/-- `convertToVSlice` (source lines 271-286). -/
def convertToVSlice (fnfChart : ChartSource) : ChartTarget :=
  { metadata :=
      { name := jsOrS fnfChart.song ("Unknown")
        bpm := jsOrI fnfChart.bpm 100
        speed := jsOrI fnfChart.speed 1 }
    notes := (match fnfChart.notes with
              | none => []
              | some ns => ns).map convertNote }

/-- The conversion mark `convertCharts` leaves on a file: untouched
(no mark), `file.converted` set to a target chart, or
`file.conversionError` set. -/
inductive COutcome where
  | untouched
  | converted (t : ChartTarget)
  | failed
deriving DecidableEq, Repr

/-- `convertCharts` (source lines 254-269) loops over the data bucket and,
for each file whose name ends in `.json`, sets `file.converted` to
`convertToVSlice(JSON.parse(await file.text()))`, or `file.conversionError`
on a parse or mapping throw.  Every working-set file ending in `.json` is
in the data bucket (the bucket rule includes that extension), and the mark
depends only on the file itself, so the mutation is modeled as this
per-file function, read back by the package builder.  The parameter
`parse` is the external structured-data codec: it stands for
`JSON.parse` composed with the field extraction of `convertToVSlice`'s
input, returning `none` when that throws. -/
def convertCharts (parse : String → Option ChartSource) (f : WFile) :
    COutcome :=
  if strEndsWith f.name (".json") then
    match parse f.content with
    | some chart => COutcome.converted (convertToVSlice chart)
    | none => COutcome.failed
  else COutcome.untouched

/-- What `zip.file(path, content)` receives as `content`: either the
original `File` object (its raw bytes) or a serialized text string. -/
inductive Content where
  | raw (f : WFile)
  | text (s : String)
deriving DecidableEq, Repr

/-- JSON string escaping for the two characters that must always be
escaped in the charts at hand. -/
def jsonEscape (s : String) : String :=
  String.mk (s.data.foldr
    (fun c acc =>
      if c = '\"' then '\\' :: '\"' :: acc
      else if c = '\\' then '\\' :: '\\' :: acc
      else c :: acc) [])

/-- A JSON string literal. -/
def jstr (s : String) : String := "\"" ++ jsonEscape s ++ "\""

/-- `JSON.stringify(·, null, 2)` on one target note (depth 2).  A `time`
of `undefined` (a source note lacking `strumTime`) is omitted by
`JSON.stringify`, so the field is dropped when `time` is `none`. -/
def stringifyNote (n : TargetNote) : String :=
  let timeField :=
    match n.time with
    | some t => ["      " ++ jstr ("time") ++ ": " ++ toString t]
    | none => []
  let fields := timeField ++
    ["      " ++ jstr ("type") ++ ": " ++ jstr n.type,
     "      " ++ jstr ("direction") ++ ": " ++ jstr n.direction,
     "      " ++ jstr ("length") ++ ": " ++ toString n.length]
  "    \x7b\n" ++ String.intercalate (",\n") fields ++ "\n    \x7d"

/-- `JSON.stringify(target, null, 2)`: the indented serialization the
package builder writes for a converted chart. -/
def stringifyChart (t : ChartTarget) : String :=
  let notesPart :=
    match t.notes with
    | [] => "[]"
    | ns => "[\n" ++ String.intercalate (",\n") (ns.map stringifyNote)
              ++ "\n  ]"
  "\x7b\n  " ++ jstr ("metadata") ++ ": \x7b\n    "
    ++ jstr ("name") ++ ": " ++ jstr t.metadata.name ++ ",\n    "
    ++ jstr ("bpm") ++ ": " ++ toString t.metadata.bpm ++ ",\n    "
    ++ jstr ("speed") ++ ": " ++ toString t.metadata.speed ++ "\n  \x7d,\n  "
    ++ jstr ("notes") ++ ": " ++ notesPart ++ "\n\x7d"

/-- The `addFiles` helper inside `createVSliceZip` (source lines 295-303):
for each file of a bucket that is not flagged `conversionError`, write
under `vslice_mod/<folderName>/<file.name>` (the enclosing
`zip.folder("vslice_mod")` prefixes every path) either the stringified
converted chart, when `file.converted` is set, or the file itself. -/
def addFiles (parse : String → Option ChartSource) (files : List WFile)
    (folderName : String) : List (String × Content) :=
  files.filterMap fun f =>
    match convertCharts parse f with
    | COutcome.failed => none
    | COutcome.converted t =>
        some ("vslice_mod/" ++ folderName ++ "/" ++ f.name,
              Content.text (stringifyChart t))
    | COutcome.untouched =>
        some ("vslice_mod/" ++ folderName ++ "/" ++ f.name,
              Content.raw f)

/-- `createVSliceZip` (source lines 288-312), as the sequence of
`zip.file` calls it makes: the songs bucket, then data, then images.
Archive encoding itself is the external codec and is not modeled. -/
def createVSliceZip (parse : String → Option ChartSource)
    (vs : VsliceStructure) : List (String × Content) :=
  addFiles parse vs.songs ("songs") ++ addFiles parse vs.data ("data")
    ++ addFiles parse vs.images ("images")

/-- `processFiles` (source lines 149-174): validate, extract the archive
when one is present, organize into buckets, convert charts, package.  The
chart-conversion marks are functional (`convertCharts`), so the packaging
step reads them directly. -/
def processFiles (dec : String → Option (List ZipEntry))
    (parse : String → Option ChartSource) (files : List WFile) :
    Except String (List (String × Content)) :=
  match validateFiles files with
  | Except.error e => Except.error e
  | Except.ok fs =>
    match (if hasArchive fs then extractArchive dec fs else Except.ok fs) with
    | Except.error e => Except.error e
    | Except.ok ws => Except.ok (createVSliceZip parse (organizeFiles ws))

/-- Whether an `Except` run completed successfully. -/
def isOkE {α β : Type} : Except α β → Bool
  | Except.ok _ => true
  | Except.error _ => false

/-- The chart source of the spec's worked example. -/
def exampleChart : ChartSource :=
  { song := some ("Test"), bpm := some 150, speed := none
    notes := some [{ strumTime := some 1000, noteType := none
                     direction := some ("left"), sustainLength := none }] }

/-- The expected transform of `exampleChart`. -/
def exampleTarget : ChartTarget :=
  { metadata := { name := "Test", bpm := 150, speed := 1 }
    notes := [{ time := some 1000, type := "default"
                direction := "left", length := 0 }] }

/-- A file matching both the images rule (extension) and the data rule
(path segment). -/
def weirdFile : WFile := { name := "extra/data/weird.png", size := 1, content := "PNG" }

/-- A small valid audio file. -/
def aOgg : WFile := { name := "a.ogg", size := 3, content := "OGG" }

/-- A small valid image file. -/
def bPng : WFile := { name := "b.png", size := 3, content := "PNGB" }

/-- A file with a disallowed extension. -/
def txtFile : WFile := { name := "x.txt", size := 1, content := "T" }

/-- A chart file whose content does not parse. -/
def badJson : WFile := { name := "bad.json", size := 5, content := "nope" }

/-- A chart file whose content parses to `exampleChart` under `pGood`. -/
def cJson : WFile := { name := "c.json", size := 4, content := "CH" }

/-- First archive file of the two-archive batch. -/
def azipFile : WFile := { name := "a.zip", size := 4, content := "AZIP" }

/-- Second archive file of the two-archive batch. -/
def bzipFile : WFile := { name := "b.zip", size := 4, content := "BZIP" }

/-- An archive file whose entries are a chart and a directory. -/
def zZip : WFile := { name := "z.zip", size := 4, content := "ZIPB" }

/-- An archive file holding one disallowed-extension entry. -/
def mZip : WFile := { name := "m.zip", size := 4, content := "MZIP" }

/-- A `.zip`-named entry inside an archive. -/
def innerZipEntry : ZipEntry := { name := "inner.zip", dir := false, data := "IZ" }

/-- An ordinary audio entry inside an archive. -/
def xOggEntry : ZipEntry := { name := "x.ogg", dir := false, data := "OG" }

/-- A chart entry inside an archive. -/
def eJsonEntry : ZipEntry := { name := "e.json", dir := false, data := "EJ" }

/-- A directory entry inside an archive. -/
def dirEntry : ZipEntry := { name := "somedir/", dir := true, data := "" }

/-- An archive entry with a disallowed extension whose path matches the
images rule. -/
def txtEntry : ZipEntry := { name := "mod/images/huge.txt", dir := false, data := "TXT" }

/-- A ZIP codec that decodes nothing. -/
def decNone : String → Option (List ZipEntry) := fun _ => none

/-- A structured-data codec on which every text fails to parse. -/
def parseNone : String → Option ChartSource := fun _ => none

/-- A ZIP codec decoding `azipFile` to a single `.zip`-named entry. -/
def decInnerZip : String → Option (List ZipEntry) :=
  fun s => if s = "AZIP" then some [innerZipEntry] else none

/-- A ZIP codec decoding `azipFile` to a single audio entry. -/
def decOggEntry : String → Option (List ZipEntry) :=
  fun s => if s = "AZIP" then some [xOggEntry] else none

/-- A ZIP codec decoding `zZip` to a chart entry plus a directory entry. -/
def decJsonAndDir : String → Option (List ZipEntry) :=
  fun s => if s = "ZIPB" then some [eJsonEntry, dirEntry] else none

/-- A ZIP codec decoding `mZip` to the disallowed-extension entry. -/
def decTxtEntry : String → Option (List ZipEntry) :=
  fun s => if s = "MZIP" then some [txtEntry] else none

/-- A structured-data codec parsing `cJson`'s content to `exampleChart`. -/
def pGood : String → Option ChartSource :=
  fun s => if s = "CH" then some exampleChart else none

/-- The archive entry the package builder writes for `cJson` under
`pGood`: the stringified conversion of `exampleChart`. -/
def chartEntryC8 : String × Content :=
  ("vslice_mod/" ++ "data" ++ "/" ++ cJson.name,
   Content.text (stringifyChart (convertToVSlice exampleChart)))

/-- Behaviour of `extractArchive` on a working set split at its first
`.zip` file: the archive is removed and its non-directory entries are
appended after all the remaining files. -/
theorem extractArchive_split (dec : String → Option (List ZipEntry))
    (pre post : List WFile) (z : WFile) (es : List ZipEntry)
    (hpre : ∀ f ∈ pre, isZipName f = false) (hz : isZipName z = true)
    (hdec : dec z.content = some es) :
    extractArchive dec (pre ++ z :: post) =
      Except.ok (pre ++ post ++ (es.filter fun e => !e.dir).map entryToFile) := by
  induction pre with
  | nil => simp [extractArchive, hz, hdec]
  | cons f fs ih =>
    have hf : isZipName f = false := hpre f (by simp)
    have ih2 := ih fun g hg => hpre g (by simp [hg])
    simp [extractArchive, hf, ih2]

/-- On a working set with no `.zip` file, `extractArchive` is the
identity. -/
theorem extractArchive_of_no_zip (dec : String → Option (List ZipEntry))
    (files : List WFile) (h : ∀ f ∈ files, isZipName f = false) :
    extractArchive dec files = Except.ok files := by
  induction files with
  | nil => rfl
  | cons f fs ih =>
    have hf : isZipName f = false := h f (by simp)
    have ih2 := ih fun g hg => h g (by simp [hg])
    simp [extractArchive, hf, ih2]

/-- Membership in the entry list produced by `addFiles`: an entry comes
from a bucket file that is not flagged as failed, at path
`vslice_mod/<folder>/<name>`, with either the raw file or the stringified
conversion as content. -/
theorem mem_addFiles (parse : String → Option ChartSource) (fs : List WFile)
    (folder : String) (pr : String × Content) :
    pr ∈ addFiles parse fs folder ↔
      ∃ f, f ∈ fs ∧
        ((convertCharts parse f = COutcome.untouched
            ∧ pr = ("vslice_mod/" ++ folder ++ "/" ++ f.name, Content.raw f))
          ∨ (∃ t, convertCharts parse f = COutcome.converted t
              ∧ pr = ("vslice_mod/" ++ folder ++ "/" ++ f.name,
                      Content.text (stringifyChart t)))) := by
  rw [addFiles, List.mem_filterMap]
  constructor
  · rintro ⟨f, hf, hg⟩
    refine ⟨f, hf, ?_⟩
    rcases h : convertCharts parse f with _ | t | _ <;> simp only [h] at hg
    · exact Or.inl ⟨rfl, (Option.some.inj hg).symm⟩
    · exact Or.inr ⟨t, rfl, (Option.some.inj hg).symm⟩
    · cases hg
  · rintro ⟨f, hf, ⟨h1, h2⟩ | ⟨t, h1, h2⟩⟩
    · exact ⟨f, hf, by rw [h1, h2]⟩
    · exact ⟨f, hf, by rw [h1, h2]⟩

/-- Whether a run completes successfully does not depend on the
structured-data codec: chart conversion failures are file-local. -/
theorem processFiles_parse_independent (dec : String → Option (List ZipEntry))
    (p p2 : String → Option ChartSource) (files : List WFile) :
    isOkE (processFiles dec p files) = isOkE (processFiles dec p2 files) := by
  unfold processFiles
  rcases validateFiles files with e | fs
  · rfl
  · rcases hx : (if hasArchive fs then extractArchive dec fs else Except.ok fs)
      with e | ws <;> simp [hx, isOkE]

/-- C1: on every chart source that parses, the transformer produces
metadata and an order-preserving notes list, applying the defaults
name="Unknown", bpm=100, speed=1, type="default", direction="middle",
length=0 when the source field is absent, and giving `time` no default
(a missing `strumTime` propagates); the spec's worked example maps to
exactly its expected output. -/
theorem C1_chart_transformer (c : ChartSource) :
    ((c.song = none → (convertToVSlice c).metadata.name = "Unknown")
      ∧ (c.bpm = none → (convertToVSlice c).metadata.bpm = 100)
      ∧ (c.speed = none → (convertToVSlice c).metadata.speed = 1))
    ∧ (convertToVSlice c).notes = (c.notes.getD []).map convertNote
    ∧ (∀ n : SourceNote,
        (convertNote n).time = n.strumTime
        ∧ (n.noteType = none → (convertNote n).type = "default")
        ∧ (n.direction = none → (convertNote n).direction = "middle")
        ∧ (n.sustainLength = none → (convertNote n).length = 0))
    ∧ convertToVSlice exampleChart = exampleTarget := by
  refine ⟨⟨fun h => ?_, fun h => ?_, fun h => ?_⟩, ?_,
    fun n => ⟨rfl, fun h => ?_, fun h => ?_, fun h => ?_⟩, rfl⟩
  · simp [convertToVSlice, jsOrS, h]
  · simp [convertToVSlice, jsOrI, h]
  · simp [convertToVSlice, jsOrI, h]
  · cases hn : c.notes <;> simp [convertToVSlice, hn]
  · simp [convertNote, jsOrS, h]
  · simp [convertNote, jsOrS, h]
  · simp [convertNote, jsOrI, h]

/-- C1 witness: the theorem applied at the all-absent chart and at the
worked example. -/
theorem C1_chart_transformer_witness :
    (convertToVSlice ⟨none, none, none, none⟩).metadata.name = "Unknown"
  ∧ (convertToVSlice ⟨none, none, none, none⟩).metadata.bpm = 100
  ∧ (convertToVSlice ⟨none, none, none, none⟩).metadata.speed = 1
  ∧ convertToVSlice exampleChart = exampleTarget :=
  ⟨(C1_chart_transformer ⟨none, none, none, none⟩).1.1 rfl,
   (C1_chart_transformer ⟨none, none, none, none⟩).1.2.1 rfl,
   (C1_chart_transformer ⟨none, none, none, none⟩).1.2.2 rfl,
   (C1_chart_transformer exampleChart).2.2.2⟩

/-- C9: a present falsy field (0 or the empty string) in song, bpm,
speed, a note's noteType or direction is replaced by the default exactly
as if the field were absent, so a present falsy value and an absent
field are indistinguishable in the output. -/
theorem C9_falsy_fields (c : ChartSource) (n : SourceNote) :
    convertToVSlice { c with song := some ("") }
      = convertToVSlice { c with song := none }
  ∧ convertToVSlice { c with bpm := some 0 }
      = convertToVSlice { c with bpm := none }
  ∧ convertToVSlice { c with speed := some 0 }
      = convertToVSlice { c with speed := none }
  ∧ convertNote { n with noteType := some ("") }
      = convertNote { n with noteType := none }
  ∧ convertNote { n with direction := some ("") }
      = convertNote { n with direction := none }
  ∧ (convertToVSlice { song := some (""), bpm := some 0, speed := some 0
                       notes := none }).metadata
      = { name := "Unknown", bpm := 100, speed := 1 } := by
  refine ⟨?_, ?_, ?_, ?_, ?_, rfl⟩ <;>
    simp [convertToVSlice, convertNote, jsOrS, jsOrI]

/-- C7: the classifier puts a file in every bucket whose rule it matches
(songs: .ogg or a /songs/ segment; data: .json or /data/; images: .png
or /images/), with no priority or conflict resolution; in particular
`extra/data/weird.png` lands in both the images and the data bucket. -/
theorem C7_rule_union (files : List WFile) (f : WFile) :
    ((f ∈ (organizeFiles files).songs ↔ f ∈ files ∧ songsRule f = true)
      ∧ (f ∈ (organizeFiles files).data ↔ f ∈ files ∧ dataRule f = true)
      ∧ (f ∈ (organizeFiles files).images ↔ f ∈ files ∧ imagesRule f = true))
    ∧ (weirdFile ∈ (organizeFiles [weirdFile]).images
        ∧ weirdFile ∈ (organizeFiles [weirdFile]).data
        ∧ weirdFile ∉ (organizeFiles [weirdFile]).songs) := by
  refine ⟨⟨?_, ?_, ?_⟩, by decide, by decide, by decide⟩ <;>
    simp [organizeFiles, List.mem_filter]

/-- C7 witness: the membership characterization applied to the
double-classified concrete file. -/
theorem C7_rule_union_witness :
    weirdFile ∈ (organizeFiles [weirdFile]).data :=
  (C7_rule_union [weirdFile] weirdFile).1.2.1.mpr (by decide)

/-- C5: an empty batch, or one in which every candidate fails the
allow-list/size filter, makes the run fail immediately with a
no-usable-files error, before any later stage, producing no archive. -/
theorem C5_no_usable_files (dec : String → Option (List ZipEntry))
    (parse : String → Option ChartSource) (files : List WFile)
    (h : files = [] ∨ ∀ f ∈ files, keepFile f = false) :
    processFiles dec parse files = Except.error ("No files selected")
      ∨ processFiles dec parse files = Except.error ("No supported files found") := by
  rcases h with h | h
  · subst h; exact Or.inl rfl
  · rcases hf : files with _ | ⟨a, as⟩
    · exact Or.inl rfl
    · right
      subst hf
      have hnil : (a :: as).filter keepFile = [] :=
        List.filter_eq_nil_iff.mpr fun g hg => by simp [h g hg]
      simp [processFiles, validateFiles, hnil]

/-- C5 witness: the theorem applied to a batch holding one
disallowed-extension file. -/
theorem C5_no_usable_files_witness :
    processFiles decNone parseNone [txtFile] = Except.error ("No files selected")
      ∨ processFiles decNone parseNone [txtFile]
          = Except.error ("No supported files found") :=
  C5_no_usable_files decNone parseNone [txtFile] (Or.inr (by decide))

/-- C3 counterexample: a batch with two archives, the first of which
contains a `.zip` entry.  After expansion the working set still holds
two elements whose names end in `.zip`: the unexpanded second archive
and the extracted `.zip` entry. -/
theorem C3_counterexample :
    extractArchive decInnerZip [azipFile, bzipFile]
      = Except.ok [bzipFile, entryToFile innerZipEntry]
  ∧ isZipName bzipFile = true
  ∧ isZipName (entryToFile innerZipEntry) = true :=
  ⟨rfl, rfl, rfl⟩

/-- C3 amended: after Archive Expansion only the first `.zip` file is
gone; later archive files of the batch stay unexpanded and `.zip`
entries of the archive are inserted as ordinary files.  The no-`.zip`
invariant holds only when the batch holds at most one `.zip` file and
the expanded archive contains no `.zip` entry. -/
theorem C3_no_zip_amended (dec : String → Option (List ZipEntry))
    (files fs' : List WFile)
    (h : extractArchive dec files = Except.ok fs')
    (h1 : (files.filter isZipName).length ≤ 1)
    (h2 : ∀ f ∈ files, ∀ es, dec f.content = some es →
            ∀ e ∈ es, isZipName (entryToFile e) = false) :
    ∀ g ∈ fs', isZipName g = false := by
  revert h
  revert fs'
  revert h1 h2
  induction files with
  | nil =>
    intro h1 h2 fs' h
    cases h
    simp
  | cons f fs ih =>
    intro h1 h2 fs' h
    cases hz : isZipName f with
    | true =>
      rcases hd : dec f.content with _ | es
      · rw [extractArchive, if_pos hz, hd] at h
        cases h
      · rw [extractArchive, if_pos hz, hd] at h
        cases h
        intro g hg
        rcases List.mem_append.mp hg with hg | hg
        · have hlen : (fs.filter isZipName).length = 0 := by
            have h1' := h1
            rw [List.filter_cons_of_pos hz, List.length_cons] at h1'
            omega
          have hfemp : fs.filter isZipName = [] := List.length_eq_zero.mp hlen
          simpa using List.filter_eq_nil_iff.mp hfemp g hg
        · rcases List.mem_map.mp hg with ⟨e, he, rfl⟩
          exact h2 f (by simp) es hd e (List.mem_filter.mp he).1
    | false =>
      have heq : extractArchive dec (f :: fs)
          = match extractArchive dec fs with
            | Except.ok r => Except.ok (f :: r)
            | Except.error e => Except.error e := by
        simp [extractArchive, hz]
      rcases hr : extractArchive dec fs with e | r
      · rw [heq, hr] at h
        cases h
      · rw [heq, hr] at h
        cases h
        intro g hg
        rcases List.mem_cons.mp hg with rfl | hg
        · exact hz
        · have h1' : (fs.filter isZipName).length ≤ 1 := by
            have := h1
            rwa [List.filter_cons_of_neg (by simp [hz])] at this
          exact ih h1' (fun f hf => h2 f (by simp [hf])) r hr g hg

/-- C3 amended witness: the amended invariant applied to a one-archive
batch whose archive holds a single audio entry. -/
theorem C3_no_zip_amended_witness :
    isZipName (entryToFile xOggEntry) = false :=
  C3_no_zip_amended decOggEntry [azipFile] [entryToFile xOggEntry] rfl
    (by decide)
    (by
      intro f hf es hes e he
      rw [List.mem_singleton] at hf
      subst hf
      have hse : some [xOggEntry] = some es := by
        simpa [decOggEntry, azipFile] using hes
      cases hse
      rw [List.mem_singleton] at he
      subst he
      rfl)
    (entryToFile xOggEntry) (by decide)

/-- C4 counterexample: with working set `[z.zip, b.png]` where the
archive holds the single chart entry `e.json`, the code produces
`[b.png, e.json]` — the entry is appended at the end — whereas insertion
in the removed archive's place would give `[e.json, b.png]`. -/
theorem C4_counterexample :
    extractArchive decJsonAndDir [zZip, bPng]
      = Except.ok [bPng, entryToFile eJsonEntry]
  ∧ ([bPng, entryToFile eJsonEntry] : List WFile)
      ≠ [entryToFile eJsonEntry, bPng] :=
  ⟨rfl, by decide⟩

/-- C4 amended: when the working set contains an archive, exactly the
first one is expanded and removed, directory entries are excluded, and
the archive's file entries are appended at the end of the working set
(after all remaining files, later archives included), not in the removed
archive's place. -/
theorem C4_first_archive_amended (dec : String → Option (List ZipEntry))
    (pre post : List WFile) (z : WFile) (es : List ZipEntry)
    (hpre : ∀ f ∈ pre, isZipName f = false) (hz : isZipName z = true)
    (hdec : dec z.content = some es) :
    extractArchive dec (pre ++ z :: post)
      = Except.ok (pre ++ post ++ (es.filter fun e => !e.dir).map entryToFile)
  ∧ (∀ e ∈ es, e.dir = false →
      entryToFile e ∈ pre ++ post ++ (es.filter fun e => !e.dir).map entryToFile)
  ∧ ∀ f ∈ post, f ∈ pre ++ post ++ (es.filter fun e => !e.dir).map entryToFile := by
  refine ⟨extractArchive_split dec pre post z es hpre hz hdec, ?_, ?_⟩
  · intro e he hed
    refine List.mem_append.mpr (Or.inr ?_)
    exact List.mem_map.mpr ⟨e, List.mem_filter.mpr ⟨he, by simp [hed]⟩, rfl⟩
  · intro f hf
    exact List.mem_append.mpr (Or.inl (List.mem_append.mpr (Or.inr hf)))

/-- C4 amended witness: the amended contract applied to the batch
`[a.ogg, z.zip, b.png]` whose archive holds a chart entry and a
directory entry. -/
theorem C4_first_archive_amended_witness :
    extractArchive decJsonAndDir ([aOgg] ++ zZip :: [bPng])
      = Except.ok ([aOgg] ++ [bPng]
          ++ ([eJsonEntry, dirEntry].filter fun e => !e.dir).map entryToFile) :=
  (C4_first_archive_amended decJsonAndDir [aOgg] [bPng] zZip
    [eJsonEntry, dirEntry] (by decide) (by decide) rfl).1

/-- Every bucket file not flagged as failed produces an archive entry at
its bucket path. -/
theorem addFiles_complete (parse : String → Option ChartSource)
    (fs : List WFile) (folder : String) (f : WFile) (hf : f ∈ fs)
    (hok : convertCharts parse f ≠ COutcome.failed) :
    ∃ c, ("vslice_mod/" ++ folder ++ "/" ++ f.name, c) ∈ addFiles parse fs folder := by
  rcases h : convertCharts parse f with _ | t | _
  · exact ⟨Content.raw f,
      (mem_addFiles parse fs folder _).mpr ⟨f, hf, Or.inl ⟨h, rfl⟩⟩⟩
  · exact ⟨Content.text (stringifyChart t),
      (mem_addFiles parse fs folder _).mpr ⟨f, hf, Or.inr ⟨t, h, rfl⟩⟩⟩
  · exact absurd h hok

/-- No entry produced by `addFiles` carries the raw bytes of a file whose
conversion is flagged as failed. -/
theorem addFiles_snd_ne_raw (parse : String → Option ChartSource)
    (fs : List WFile) (folder : String) (f : WFile)
    (hfail : convertCharts parse f = COutcome.failed) :
    ∀ pr ∈ addFiles parse fs folder, pr.2 ≠ Content.raw f := by
  intro pr hpr
  rcases (mem_addFiles parse fs folder pr).mp hpr with ⟨g, _, ⟨h1, h2⟩ | ⟨t, h1, h2⟩⟩
  · rw [h2]
    intro hc
    have hgf : g = f := Content.raw.inj hc
    rw [hgf, hfail] at h1
    cases h1
  · rw [h2]
    intro hc
    cases hc

/-- C2 counterexample: a completed run over the single file `a.ogg`
writes it at `vslice_mod/songs/a.ogg`, which is not
`<bucket-name>/<original-file-name>` for any of the three buckets — the
`zip.folder` call adds an enclosing `vslice_mod` folder. -/
theorem C2_counterexample :
    processFiles decNone parseNone [aOgg]
      = Except.ok [("vslice_mod/songs/a.ogg", Content.raw aOgg)]
  ∧ ∀ bucket ∈ (["songs", "data", "images"] : List String),
      "vslice_mod/songs/a.ogg" ≠ bucket ++ "/" ++ aOgg.name :=
  ⟨rfl, by decide⟩

/-- C2 amended: each surviving file is written in the output archive at
`vslice_mod/<bucket-name>/<original-file-name>`: the archive has a
single enclosing top-level folder `vslice_mod` containing the `songs/`,
`data/`, `images/` folders, and every entry comes from a bucket file at
its bucket path. -/
theorem C2_paths_amended (parse : String → Option ChartSource)
    (vs : VsliceStructure) :
    (∀ pr ∈ createVSliceZip parse vs,
        (∃ f ∈ vs.songs, pr.1 = "vslice_mod/" ++ "songs" ++ "/" ++ f.name)
      ∨ (∃ f ∈ vs.data, pr.1 = "vslice_mod/" ++ "data" ++ "/" ++ f.name)
      ∨ (∃ f ∈ vs.images, pr.1 = "vslice_mod/" ++ "images" ++ "/" ++ f.name))
  ∧ (∀ f ∈ vs.songs, convertCharts parse f ≠ COutcome.failed →
      ∃ c, ("vslice_mod/" ++ "songs" ++ "/" ++ f.name, c) ∈ createVSliceZip parse vs)
  ∧ (∀ f ∈ vs.data, convertCharts parse f ≠ COutcome.failed →
      ∃ c, ("vslice_mod/" ++ "data" ++ "/" ++ f.name, c) ∈ createVSliceZip parse vs)
  ∧ (∀ f ∈ vs.images, convertCharts parse f ≠ COutcome.failed →
      ∃ c, ("vslice_mod/" ++ "images" ++ "/" ++ f.name, c) ∈ createVSliceZip parse vs) := by
  refine ⟨?_, ?_, ?_, ?_⟩
  · intro pr hpr
    simp only [createVSliceZip] at hpr
    rcases List.mem_append.mp hpr with h1 | h1
    · rcases List.mem_append.mp h1 with h2 | h2
      · rcases (mem_addFiles parse vs.songs ("songs") pr).mp h2
          with ⟨f, hf, ⟨_, h4⟩ | ⟨t, _, h4⟩⟩
        · exact Or.inl ⟨f, hf, by rw [h4]⟩
        · exact Or.inl ⟨f, hf, by rw [h4]⟩
      · rcases (mem_addFiles parse vs.data ("data") pr).mp h2
          with ⟨f, hf, ⟨_, h4⟩ | ⟨t, _, h4⟩⟩
        · exact Or.inr (Or.inl ⟨f, hf, by rw [h4]⟩)
        · exact Or.inr (Or.inl ⟨f, hf, by rw [h4]⟩)
    · rcases (mem_addFiles parse vs.images ("images") pr).mp h1
        with ⟨f, hf, ⟨_, h4⟩ | ⟨t, _, h4⟩⟩
      · exact Or.inr (Or.inr ⟨f, hf, by rw [h4]⟩)
      · exact Or.inr (Or.inr ⟨f, hf, by rw [h4]⟩)
  · intro f hf hok
    rcases addFiles_complete parse vs.songs ("songs") f hf hok with ⟨c, hc⟩
    refine ⟨c, ?_⟩
    simp only [createVSliceZip]
    exact List.mem_append.mpr (Or.inl (List.mem_append.mpr (Or.inl hc)))
  · intro f hf hok
    rcases addFiles_complete parse vs.data ("data") f hf hok with ⟨c, hc⟩
    refine ⟨c, ?_⟩
    simp only [createVSliceZip]
    exact List.mem_append.mpr (Or.inl (List.mem_append.mpr (Or.inr hc)))
  · intro f hf hok
    rcases addFiles_complete parse vs.images ("images") f hf hok with ⟨c, hc⟩
    refine ⟨c, ?_⟩
    simp only [createVSliceZip]
    exact List.mem_append.mpr (Or.inr hc)

/-- C2 amended witness: the completeness part applied to the songs
bucket of a one-file working set. -/
theorem C2_paths_amended_witness :
    ∃ c, ("vslice_mod/" ++ "songs" ++ "/" ++ aOgg.name, c)
        ∈ createVSliceZip parseNone (organizeFiles [aOgg]) :=
  (C2_paths_amended parseNone (organizeFiles [aOgg])).2.1 aOgg
    (by decide) (by decide)

/-- C8: every entry the package builder emits comes from a bucket file
that is either unconverted — its content is the original file's raw
bytes, exactly — or successfully converted — its content is the
stringified target chart rather than the original bytes. -/
theorem C8_content_dichotomy (parse : String → Option ChartSource)
    (vs : VsliceStructure) (pr : String × Content)
    (h : pr ∈ createVSliceZip parse vs) :
    ∃ f, (f ∈ vs.songs ∨ f ∈ vs.data ∨ f ∈ vs.images)
      ∧ ((convertCharts parse f = COutcome.untouched ∧ pr.2 = Content.raw f)
        ∨ (∃ t, convertCharts parse f = COutcome.converted t
            ∧ pr.2 = Content.text (stringifyChart t))) := by
  simp only [createVSliceZip] at h
  rcases List.mem_append.mp h with h1 | h1
  · rcases List.mem_append.mp h1 with h2 | h2
    · rcases (mem_addFiles parse vs.songs ("songs") pr).mp h2
        with ⟨f, hf, ⟨h3, h4⟩ | ⟨t, h3, h4⟩⟩
      · exact ⟨f, Or.inl hf, Or.inl ⟨h3, by rw [h4]⟩⟩
      · exact ⟨f, Or.inl hf, Or.inr ⟨t, h3, by rw [h4]⟩⟩
    · rcases (mem_addFiles parse vs.data ("data") pr).mp h2
        with ⟨f, hf, ⟨h3, h4⟩ | ⟨t, h3, h4⟩⟩
      · exact ⟨f, Or.inr (Or.inl hf), Or.inl ⟨h3, by rw [h4]⟩⟩
      · exact ⟨f, Or.inr (Or.inl hf), Or.inr ⟨t, h3, by rw [h4]⟩⟩
  · rcases (mem_addFiles parse vs.images ("images") pr).mp h1
      with ⟨f, hf, ⟨h3, h4⟩ | ⟨t, h3, h4⟩⟩
    · exact ⟨f, Or.inr (Or.inr hf), Or.inl ⟨h3, by rw [h4]⟩⟩
    · exact ⟨f, Or.inr (Or.inr hf), Or.inr ⟨t, h3, by rw [h4]⟩⟩

set_option maxRecDepth 8000 in
/-- C8 witness: the dichotomy applied to the serialized entry a
successfully converted chart file produces. -/
theorem C8_content_dichotomy_witness :
    ∃ f, (f ∈ (organizeFiles [cJson]).songs
            ∨ f ∈ (organizeFiles [cJson]).data
            ∨ f ∈ (organizeFiles [cJson]).images)
      ∧ ((convertCharts pGood f = COutcome.untouched
            ∧ chartEntryC8.2 = Content.raw f)
        ∨ (∃ t, convertCharts pGood f = COutcome.converted t
            ∧ chartEntryC8.2 = Content.text (stringifyChart t))) :=
  C8_content_dichotomy pGood (organizeFiles [cJson]) chartEntryC8 (by decide)

/-- C6: a data-bucket `.json` file whose content fails to parse is
flagged as failed — and exactly the unparsable `.json` files are — its
raw content reaches no entry of the completed run's output, and whether
the run completes does not depend on the codec's parse outcomes at all. -/
theorem C6_chart_failure_isolated (dec : String → Option (List ZipEntry))
    (parse parse2 : String → Option ChartSource) (files : List WFile)
    (out : List (String × Content)) (f : WFile)
    (hf : strEndsWith f.name (".json") = true)
    (hp : parse f.content = none)
    (hrun : processFiles dec parse files = Except.ok out) :
    convertCharts parse f = COutcome.failed
  ∧ (∀ pr ∈ out, pr.2 ≠ Content.raw f)
  ∧ (∀ g : WFile, convertCharts parse g = COutcome.failed ↔
      (strEndsWith g.name (".json") = true ∧ parse g.content = none))
  ∧ isOkE (processFiles dec parse2 files) = true := by
  have hfail : convertCharts parse f = COutcome.failed := by
    simp [convertCharts, hf, hp]
  refine ⟨hfail, ?_, ?_, ?_⟩
  · unfold processFiles at hrun
    rcases hv : validateFiles files with e | fs
    · rw [hv] at hrun; cases hrun
    · rw [hv] at hrun
      dsimp only at hrun
      rcases hx : (if hasArchive fs then extractArchive dec fs else Except.ok fs)
        with e | ws
      · rw [hx] at hrun; cases hrun
      · rw [hx] at hrun
        cases hrun
        intro pr hpr
        simp only [createVSliceZip] at hpr
        rcases List.mem_append.mp hpr with h1 | h1
        · rcases List.mem_append.mp h1 with h2 | h2
          · exact addFiles_snd_ne_raw parse _ ("songs") f hfail pr h2
          · exact addFiles_snd_ne_raw parse _ ("data") f hfail pr h2
        · exact addFiles_snd_ne_raw parse _ ("images") f hfail pr h1
  · intro g
    constructor
    · intro hg
      by_cases hj : strEndsWith g.name (".json") = true
      · rcases hpg : parse g.content with _ | c
        · exact ⟨hj, rfl⟩
        · exfalso
          simp [convertCharts, hj, hpg] at hg
      · exfalso
        simp [convertCharts, hj] at hg
    · rintro ⟨h1, h2⟩
      simp [convertCharts, h1, h2]
  · rw [processFiles_parse_independent dec parse2 parse files, hrun]
    rfl

/-- C6 witness: the theorem applied to the batch `[a.ogg, bad.json]`
under the nothing-parses codec: the chart file is flagged and excluded
while the audio file is packaged and the run succeeds. -/
theorem C6_chart_failure_isolated_witness :
    convertCharts parseNone badJson = COutcome.failed
  ∧ (∀ pr ∈ ([("vslice_mod/songs/a.ogg", Content.raw aOgg)] :
        List (String × Content)), pr.2 ≠ Content.raw badJson)
  ∧ (∀ g : WFile, convertCharts parseNone g = COutcome.failed ↔
      (strEndsWith g.name (".json") = true ∧ parseNone g.content = none))
  ∧ isOkE (processFiles decNone pGood [aOgg, badJson]) = true :=
  C6_chart_failure_isolated decNone parseNone pGood [aOgg, badJson]
    [("vslice_mod/songs/a.ogg", Content.raw aOgg)] badJson rfl rfl rfl

/-- C10: a non-directory entry extracted from the archive joins the
working set with no allow-list or size check — the hypotheses place no
constraint on the entry's extension or size — and when it matches the
images rule and is not a chart file, its raw bytes reach the output
archive of the completed run. -/
theorem C10_entries_skip_validation (dec : String → Option (List ZipEntry))
    (parse : String → Option ChartSource)
    (files files1 pre post : List WFile) (z : WFile)
    (es : List ZipEntry) (e : ZipEntry)
    (hv : validateFiles files = Except.ok files1)
    (hsplit : files1 = pre ++ z :: post)
    (hpre : ∀ f ∈ pre, isZipName f = false)
    (hz : isZipName z = true)
    (hdec : dec z.content = some es)
    (he : e ∈ es) (hed : e.dir = false)
    (himg : imagesRule (entryToFile e) = true)
    (hnj : strEndsWith (entryToFile e).name (".json") = false) :
    ∃ out, processFiles dec parse files = Except.ok out
      ∧ ("vslice_mod/" ++ "images" ++ "/" ++ e.name,
          Content.raw (entryToFile e)) ∈ out := by
  subst hsplit
  have harch : hasArchive (pre ++ z :: post) = true := by
    simp only [hasArchive, List.any_eq_true]
    exact ⟨z, by simp, hz⟩
  have hex := extractArchive_split dec pre post z es hpre hz hdec
  refine ⟨createVSliceZip parse (organizeFiles
      (pre ++ post ++ (es.filter fun x => !x.dir).map entryToFile)), ?_, ?_⟩
  · unfold processFiles
    simp only [hv, harch, if_true, hex]
  · have hmem : entryToFile e
        ∈ pre ++ post ++ (es.filter fun x => !x.dir).map entryToFile :=
      List.mem_append.mpr (Or.inr (List.mem_map.mpr
        ⟨e, List.mem_filter.mpr ⟨he, by simp [hed]⟩, rfl⟩))
    have himgmem : entryToFile e ∈ (organizeFiles
        (pre ++ post ++ (es.filter fun x => !x.dir).map entryToFile)).images :=
      List.mem_filter.mpr ⟨hmem, himg⟩
    have huntouched : convertCharts parse (entryToFile e) = COutcome.untouched := by
      simp [convertCharts, hnj]
    have haf : ("vslice_mod/" ++ "images" ++ "/" ++ (entryToFile e).name,
        Content.raw (entryToFile e)) ∈ addFiles parse ((organizeFiles
          (pre ++ post ++ (es.filter fun x => !x.dir).map entryToFile)).images)
          ("images") :=
      (mem_addFiles parse _ ("images") _).mpr
        ⟨entryToFile e, himgmem, Or.inl ⟨huntouched, rfl⟩⟩
    simp only [createVSliceZip]
    exact List.mem_append.mpr (Or.inr haf)

/-- C10 witness: a disallowed-extension entry (`keepFile` rejects it)
extracted from the only archive of a valid batch still lands in the
output archive under the images folder. -/
theorem C10_entries_skip_validation_witness :
    keepFile (entryToFile txtEntry) = false
  ∧ ∃ out, processFiles decTxtEntry parseNone [mZip] = Except.ok out
      ∧ ("vslice_mod/" ++ "images" ++ "/" ++ txtEntry.name,
          Content.raw (entryToFile txtEntry)) ∈ out :=
  ⟨by decide,
   C10_entries_skip_validation decTxtEntry parseNone [mZip] [mZip] [] [] mZip
     [txtEntry] txtEntry rfl rfl (by simp) rfl rfl (by decide) rfl
     (by decide) rfl⟩

end VSlice
